import Mathlib

/-!
Verification development for the frigate_plate_recognizer repository.

Shallow embedding, translated module by module from the Python source:

* `Events`       — frigate_plate_recognizer/events.py (in-flight attempt tracker)
* `EventFilters` — frigate_plate_recognizer/event_filters.py
* `Recognition`  — frigate_plate_recognizer/recognition.py
* `Pipeline`     — frigate_plate_recognizer/pipeline.py
* `Storage`      — frigate_plate_recognizer/storage.py (insert contract)
* `App`          — frigate_plate_recognizer/app.py (`_process_message_inner`)

Python optional floats are modelled as `Option ℚ`, optional strings as
`Option String`; Python truthiness is made explicit through small helper
functions.  Machine-level float behaviour is not needed by any statement
below (all comparisons are order comparisons, exact over ℚ).
-/

/-- Python truthiness of an optional string: `None` and `""` are falsy. -/
def truthyStr : Option String → Bool
  | none => false
  | some s => s ≠ ""

/-- Python truthiness of an optional number: `None` and `0` are falsy. -/
def truthyNum : Option ℚ → Bool
  | none => false
  | some x => x ≠ 0

/-- Python `str.lower()`, character by character (`String.toLower` has the
same value but does not reduce inside the kernel, so the character-list map
is used as the executable model). -/
def pyLower (s : String) : String := ⟨s.data.map Char.toLower⟩

/-- Python `min` on two numbers. -/
def pymin (a b : ℚ) : ℚ := if a ≤ b then a else b


namespace Events

/-!
Model of `events.py`.  The module-level dict `CURRENT_EVENTS : Dict[str, int]`
is modelled as an association list in insertion order (Python dicts preserve
insertion order; `setdefault` appends, assignment to an existing key updates
in place, `del` removes the entry).  The mutex only serialises the operations
and has no sequential content, so it is not modelled.
-/

/-- The `CURRENT_EVENTS` dict: event id to attempt count, insertion order. -/
abbrev TrackerState := List (String × Int)

/-- Dictionary lookup: value at the first matching key. -/
def lookupCount : TrackerState → String → Option Int
  | [], _ => none
  | (k, v) :: rest, id => if k = id then some v else lookupCount rest id

/-- Dictionary assignment `d[id] = v`: update in place, else append. -/
def setCount : TrackerState → String → Int → TrackerState
  | [], id, v => [(id, v)]
  | (k, x) :: rest, id, v =>
      if k = id then (id, v) :: rest else (k, x) :: setCount rest id v

/-- `is_event_tracked`: `event_id in CURRENT_EVENTS`. -/
def is_event_tracked (s : TrackerState) (id : String) : Bool :=
  (lookupCount s id).isSome

/-- `track_event_start`: `CURRENT_EVENTS.setdefault(event_id, 0)`. -/
def track_event_start (s : TrackerState) (id : String) : TrackerState :=
  match lookupCount s id with
  | some _ => s
  | none => s ++ [(id, 0)]

/-- `get_event_attempts`: `CURRENT_EVENTS.get(event_id, 0)`. -/
def get_event_attempts (s : TrackerState) (id : String) : Int :=
  (lookupCount s id).getD 0

/-- `increment_event_attempt`:
`CURRENT_EVENTS[event_id] = CURRENT_EVENTS.get(event_id, 0) + 1`, returning
the new count. -/
def increment_event_attempt (s : TrackerState) (id : String) :
    TrackerState × Int :=
  let n := get_event_attempts s id + 1
  (setCount s id n, n)

/-- `clear_event`: `del CURRENT_EVENTS[event_id]` guarded by membership. -/
def clear_event : TrackerState → String → TrackerState
  | [], _ => []
  | (k, v) :: rest, id => if k = id then rest else (k, v) :: clear_event rest id

/-- `reset`: `CURRENT_EVENTS.clear()`. -/
def reset (_ : TrackerState) : TrackerState := []

/-- One EventTracker operation (reads included, they leave the state alone). -/
inductive TrackerOp where
  | start (id : String)
  | increment (id : String)
  | read (id : String)
  | clear (id : String)
  | reset
deriving DecidableEq

/-- State transition of one operation. -/
def applyOp : TrackerOp → TrackerState → TrackerState
  | .start id, s => track_event_start s id
  | .increment id, s => (increment_event_attempt s id).1
  | .read _, s => s
  | .clear id, s => clear_event s id
  | .reset, s => reset s

/-- State after a sequence of operations, first operation applied first. -/
def applyOps (ops : List TrackerOp) (s : TrackerState) : TrackerState :=
  ops.foldl (fun t o => applyOp o t) s

/-- The tracker invariant: at most one record per event identifier and every
tracked counter is nonnegative. -/
def WF (s : TrackerState) : Prop :=
  (s.map Prod.fst).Nodup ∧ ∀ p ∈ s, 0 ≤ p.2


end Events

namespace EventFilters

/-!
Model of `event_filters.py`.  `before_data`/`after_data` are the relevant
projections of the inbound JSON dicts; `.get` of a possibly-missing scalar
key is an `Option`, `.get('current_zones', [])` is a list.
-/

/-- `DEFAULT_OBJECTS = ('car', 'motorcycle', 'bus')`. -/
def DEFAULT_OBJECTS : List String := ["car", "motorcycle", "bus"]

/-- The fields of an event message dict reading by `check_invalid_event`. -/
structure EventData where
  currentZones : List String
  camera : Option String
  label : Option String
  topScore : Option ℚ

/-- The parts of `config['frigate']` consulted by `check_invalid_event`.
`objects` is `none` when the key is absent from the dict (the code falls back
to `DEFAULT_OBJECTS` in that case). -/
structure FilterConfig where
  zones : List String
  camera : List String
  objects : Option (List String)
  frigatePlus : Bool

/-- Python `x in l` where `x` may be `None` (never equal to a string). -/
def optMemStr : Option String → List String → Bool
  | none, _ => false
  | some s, l => s ∈ l

/-- The `matching_zone` local of `check_invalid_event`:
`any(value in after_data.get('current_zones', []) for value in config_zones)
if config_zones else True`. -/
def matching_zone (config : FilterConfig) (after_data : EventData) : Bool :=
  if config.zones ≠ [] then
    config.zones.any (fun z => z ∈ after_data.currentZones)
  else true

/-- The `matching_camera` local of `check_invalid_event`:
`(camera in list(config_cameras)) if config_cameras else True`. -/
def matching_camera (config : FilterConfig) (after_data : EventData) : Bool :=
  if config.camera ≠ [] then optMemStr after_data.camera config.camera
  else true

/-- `check_invalid_event` from `event_filters.py`, transcribed clause by
clause (zone/camera gate, label gate, duplicate-top-score gate). -/
def check_invalid_event (config : FilterConfig) (before_data after_data : EventData)
    (is_tracked : Bool) : Bool :=
  if ¬(matching_zone config after_data ∧ matching_camera config after_data) then
    true
  else
    let valid_objects := config.objects.getD DEFAULT_OBJECTS
    if ¬optMemStr after_data.label valid_objects then true
    else if before_data.topScore = after_data.topScore ∧ is_tracked ∧
        ¬config.frigatePlus then true
    else false

end EventFilters

namespace Recognition

/-!
Model of `recognition.py`.  The similarity function
`difflib.SequenceMatcher(a, b).ratio()` is a Python-stdlib call, not code of
this repository; it enters the model as an explicit parameter `sim`, applied
exactly where the source applies it (both arguments already lower-cased).
The Python set `watched_set` is modelled as the list of lower-cased watched
plates in configuration order (set iteration order is unspecified in the
source; no theorem below depends on the order except through the model).
-/

/-- One backend candidate dict, with the four keys the code reads. -/
structure Candidate where
  plate : Option String
  candidate : Option String
  score : Option ℚ
  confidence : Option ℚ
deriving DecidableEq

/-- The parts of the runtime config dict read by `check_watched_plates`:
`frigate.watched_plates`, `frigate.fuzzy_match` (default 0) and the
truthiness of the top-level `plate_recognizer` key. -/
structure WatchConfig where
  watched_plates : List String
  fuzzy_match : ℚ
  plate_recognizer : Bool

/-- `watched_set`: the lower-cased watched plates. -/
def watchedLower (cfg : WatchConfig) : List String :=
  cfg.watched_plates.map pyLower

/-- `candidate.get('plate') or candidate.get('candidate')` (Python `or`
falls through on `None` and on the empty string). -/
def candidateText (c : Candidate) : Option String :=
  match c.plate with
  | some s => if s = "" then c.candidate else some s
  | none => c.candidate

/-- The candidate's matched plate text, when the step-2 guard
`candidate_plate and candidate_plate.lower() in watched_set` passes. -/
def matchedText (watched : List String) (c : Candidate) : Option String :=
  match candidateText c with
  | some s => if s ≠ "" ∧ pyLower s ∈ watched then some s else none
  | none => none

/-- The step-2 `for idx, candidate in enumerate(candidates)` loop.  For the
Plate Recognizer backend a hit carries `candidate['score']`; for
CodeProject.AI index 0 is skipped (`continue`) and a hit carries
`candidate['confidence']`. -/
def scanCandidates (isPR : Bool) (watched : List String) :
    ℕ → List Candidate → Option (String × Option ℚ)
  | _, [] => none
  | idx, c :: rest =>
      match matchedText watched c with
      | some s =>
          if isPR then some (s, c.score)
          else if idx = 0 then scanCandidates isPR watched (idx + 1) rest
          else some (s, c.confidence)
      | none => scanCandidates isPR watched (idx + 1) rest

/-- The step-3 best-fuzzy fold: running `(best_match, best_score)` pair,
updated on strict improvement, starting from `(None, 0.0)`. -/
def fuzzyStep (sim : String → String → ℚ) (p : String)
    (acc : Option String × ℚ) (w : String) : Option String × ℚ :=
  if sim p w > acc.2 then (some w, sim p w) else acc

def fuzzyBest (sim : String → String → ℚ) (p : String) (l : List String) :
    Option String × ℚ :=
  l.foldl (fuzzyStep sim p) (none, 0)

/-- `check_watched_plates` from `recognition.py`: tier 1 exact top-plate
suppression, tier 2 candidate scan, tier 3 fuzzy fallback. -/
def check_watched_plates (sim : String → String → ℚ)
    (plate_number : Option String) (candidates : List Candidate)
    (cfg : WatchConfig) : Option String × Option ℚ × Option ℚ :=
  match plate_number with
  | none => (none, none, none)
  | some pn =>
    if pn = "" then (none, none, none)
    else if cfg.watched_plates = [] then (none, none, none)
    else
      let watched := watchedLower cfg
      if pyLower pn ∈ watched then (none, none, none)
      else
        match scanCandidates cfg.plate_recognizer watched 0 candidates with
        | some (s, sc) => (some s, sc, none)
        | none =>
            if cfg.fuzzy_match = 0 then (none, none, none)
            else
              let best := fuzzyBest sim (pyLower pn) watched
              match best.1 with
              | some w =>
                  if w ≠ "" ∧ best.2 ≥ cfg.fuzzy_match then
                    (some w, none, some best.2)
                  else (none, none, none)
              | none => (none, none, none)

/-- The 4-tuple returned by the recognition helpers:
`(plate_number, plate_score, watched_plate, fuzzy_score)`. -/
structure RecResult where
  plate_number : Option String
  plate_score : Option ℚ
  watched_plate : Option String
  fuzzy_score : Option ℚ
deriving DecidableEq

def emptyRec : RecResult := ⟨none, none, none, none⟩

/-- The top entry of the Plate Recognizer `results` list. -/
structure PRResult where
  plate : Option String
  score : Option ℚ
  candidates : List Candidate

/-- Outcome of `response.json()` on a 200/201 response. -/
inductive Parsed where
  | invalidJson
  | results (rs : List PRResult)

/-- What one `session.post` attempt produces: a raised `RequestException`
or an HTTP response with a status code and a body. -/
inductive AttemptOutcome where
  | transportError
  | httpResponse (status : ℕ) (body : Parsed)

/-- Observable trace of one `recognize_with_plate_recognizer` call: the
returned 4-tuple, the number of `plate_recognizer_err` increments, the
`time.sleep` durations in order, and the number of `session.post` calls. -/
structure RetryTrace where
  result : RecResult
  errIncs : ℕ
  sleeps : List ℚ
  attemptsMade : ℕ
deriving DecidableEq

/-- Lines 227-240: parse the top result and resolve via
`check_watched_plates`, then pick which fields to return by truthiness of
`fuzzy_score` and `watched_plate`. -/
def parseTop (sim : String → String → ℚ) (cfg : WatchConfig)
    (top : PRResult) : RecResult :=
  let resolved := check_watched_plates sim top.plate top.candidates cfg
  if truthyNum resolved.2.2 then ⟨top.plate, top.score, resolved.1, resolved.2.2⟩
  else if truthyStr resolved.1 then ⟨top.plate, resolved.2.1, resolved.1, none⟩
  else ⟨top.plate, top.score, none, none⟩

/-- `attempts = max(1, recognizer_config.max_retries + 1)`. -/
def prAttempts (max_retries : ℕ) : ℕ := max 1 (max_retries + 1)

/-- The `for attempt in range(1, attempts + 1)` loop of
`recognize_with_plate_recognizer`.  `remaining` is the number of loop
iterations still available (so `remaining = 1` is the final attempt, and
`remaining = 0` is the fall-through `return None, None, None, None` after
the loop); `attempt` is the 1-based attempt index used to look up that
attempt's response; `delay` is the current backoff delay (`delay_seconds`,
initially 1, doubled and capped at 60 after every sleep). -/
def prLoop (sim : String → String → ℚ) (cfg : WatchConfig)
    (responses : ℕ → AttemptOutcome) :
    ℕ → ℕ → ℚ → RetryTrace
  | 0, _, _ => ⟨emptyRec, 0, [], 0⟩
  | remaining + 1, attempt, delay =>
      match responses attempt with
      | .transportError =>
          if remaining = 0 then ⟨emptyRec, 1, [], 1⟩
          else
            let t := prLoop sim cfg responses remaining (attempt + 1)
              (pymin (delay * 2) 60)
            ⟨t.result, t.errIncs, delay :: t.sleeps, t.attemptsMade + 1⟩
      | .httpResponse status body =>
          if status = 429 then
            let t := prLoop sim cfg responses remaining (attempt + 1)
              (pymin (delay * 2) 60)
            ⟨t.result, t.errIncs, delay :: t.sleeps, t.attemptsMade + 1⟩
          else if status ≠ 200 ∧ status ≠ 201 then
            if remaining = 0 then ⟨emptyRec, 1, [], 1⟩
            else
              let t := prLoop sim cfg responses remaining (attempt + 1)
                (pymin (delay * 2) 60)
              ⟨t.result, t.errIncs, delay :: t.sleeps, t.attemptsMade + 1⟩
          else
            match body with
            | .invalidJson => ⟨emptyRec, 1, [], 1⟩
            | .results [] => ⟨emptyRec, 0, [], 1⟩
            | .results (top :: _) => ⟨parseTop sim cfg top, 0, [], 1⟩

/-- `recognize_with_plate_recognizer`, as a function of the configured
`max_retries` and the per-attempt responses of the external service. -/
def recognize_with_plate_recognizer (sim : String → String → ℚ)
    (cfg : WatchConfig) (max_retries : ℕ)
    (responses : ℕ → AttemptOutcome) : RetryTrace :=
  prLoop sim cfg responses (prAttempts max_retries) 1 1

/-- An attempt outcome the loop retries on: a raised transport exception, an
HTTP 429, or any other status outside 200/201. -/
def retryableB : AttemptOutcome → Bool
  | .transportError => true
  | .httpResponse status _ => decide (status ≠ 200) && decide (status ≠ 201)

/-- Whether an attempt outcome is an HTTP 429 response. -/
def is429 : AttemptOutcome → Bool
  | .transportError => false
  | .httpResponse status _ => status = 429

/-- The sleep sequence of the exponential backoff, read from position `k`:
each duration is `min(2 ** position, 60)` seconds. -/
def backoffFrom : ℕ → List ℚ → Prop
  | _, [] => True
  | k, d :: rest => d = pymin ((2 : ℚ) ^ k) 60 ∧ backoffFrom (k + 1) rest

end Recognition

namespace Pipeline

/-!
Model of `pipeline.py` (`get_plate`): the minimum-score floor applied to the
backend's recognition result.  The backend dispatch and HTTP sessions are
upstream of the floor; the already-obtained backend result is the argument.
-/

/-- `score_too_low = bool(min_score and plate_score and plate_score <
min_score)` — every conjunct by Python truthiness. -/
def score_too_low (min_score plate_score : Option ℚ) : Bool :=
  match min_score, plate_score with
  | some m, some s => decide (m ≠ 0) && decide (s ≠ 0) && decide (s < m)
  | _, _ => false

/-- The floor step of `get_plate`:
`if not fuzzy_score and score_too_low: return None, None, None, None`. -/
def get_plate (min_score : Option ℚ) (r : Recognition.RecResult) :
    Recognition.RecResult :=
  if !truthyNum r.fuzzy_score && score_too_low min_score r.plate_score then
    Recognition.emptyRec
  else r

end Pipeline

namespace Storage

/-!
Model of `storage.py` (`insert_plate`): the SQLite engine's verdict on the
insert is the environment input; the function's contract is how that verdict
is mapped to return value / raised exception.
-/

/-- How the store treats the insert: success, unique-constraint rejection
(`sqlite3.IntegrityError`), or any other `sqlite3.Error`. -/
inductive StoreResult where
  | ok
  | integrityError
  | otherError
deriving DecidableEq

/-- `insert_plate`: returns `True` on success, `False` on
`IntegrityError` (already stored), and re-raises any other
`sqlite3.Error` (`Except.error`). -/
def insert_plate : StoreResult → Except Unit Bool
  | .ok => .ok true
  | .integrityError => .ok false
  | .otherError => .error ()

end Storage

namespace App

/-!
Model of `app.py` `_process_message_inner`.  Everything the traversal reads
from the outside world (message fields, filter verdicts, store verdict,
backend recognition result) is packed into `PipelineEnv`; the tracker dict
is threaded explicitly.  The effects record registers which side-effecting
calls were made.
-/

open Events

/-- The `try: store_plate_in_db ... except sqlite3.Error: result = 'db_error'`
block (app.py lines 427-437): the storage exception is caught here and
converted into an outcome string. -/
def tryStorePlate (s : Storage.StoreResult) : String :=
  match Storage.insert_plate s with
  | .ok true => "success"
  | .ok false => "duplicate_event"
  | .error _ => "db_error"

/-- Side-effecting calls made during one traversal. -/
structure Effects where
  recognitionCalled : Bool
  sublabelPushed : Bool
  published : Bool
  imageSaved : Bool
deriving DecidableEq

def noFx : Effects := ⟨false, false, false, false⟩

/-- Inputs of one `_process_message_inner` traversal.  `recResult` is what
the selected recognition backend returns for this snapshot (the floor of
`pipeline.get_plate` is applied to it inside the model, as in the code);
`invalidEvent`, `duplicateEvent` and `validLicensePlate` are the verdicts
of the corresponding helpers, modelled elsewhere. -/
structure PipelineEnv where
  firstMessage : Bool
  messageType : String
  eventId : String
  invalidEvent : Bool
  duplicateEvent : Bool
  frigatePlus : Bool
  validLicensePlate : Bool
  hasSnapshot : Bool
  snapshotOk : Bool
  maxAttempts : Int
  min_score : Option ℚ
  recResult : Recognition.RecResult
  storeResult : Storage.StoreResult
  alwaysSaveSnapshot : Bool

/-- app.py lines 409-463: the attempt-bound gate, the attempt increment, the
recognition call (with the `pipeline.get_plate` floor), the persistence
`try/except`, the sublabel push, the downstream publish and the snapshot
save. -/
def recognitionStage (env : PipelineEnv) (st2 : TrackerState) :
    String × TrackerState × Effects :=
  if 0 < env.maxAttempts ∧
      env.maxAttempts ≤ get_event_attempts st2 env.eventId then
    ("max_attempts", st2, noFx)
  else
    let st3 := (increment_event_attempt st2 env.eventId).1
    let r := Pipeline.get_plate env.min_score env.recResult
    let savedPlate :=
      if truthyStr r.watched_plate then r.watched_plate else r.plate_number
    let imgSaved := truthyStr savedPlate || env.alwaysSaveSnapshot
    if truthyStr r.plate_number then
      (tryStorePlate env.storeResult, st3, ⟨true, true, true, imgSaved⟩)
    else
      ("no_plate", st3, ⟨true, false, false, imgSaved⟩)

/-- `_process_message_inner`, step by step in source order. -/
def process_message_inner (env : PipelineEnv) (st : TrackerState) :
    String × TrackerState × Effects :=
  if env.firstMessage then ("first_message", st, noFx)
  else
    let st1 := if env.messageType = "end" ∧ is_event_tracked st env.eventId
      then clear_event st env.eventId else st
    if env.invalidEvent then ("invalid_event", st1, noFx)
    else if env.duplicateEvent then ("duplicate_event", st1, noFx)
    else if env.frigatePlus ∧ ¬env.validLicensePlate then
      ("invalid_license_plate", st1, noFx)
    else
      let st2 := if env.messageType ≠ "end" ∧ ¬is_event_tracked st1 env.eventId
        then track_event_start st1 env.eventId else st1
      if ¬(env.hasSnapshot ∧ env.snapshotOk) then
        ("no_snapshot", clear_event st2 env.eventId, noFx)
      else recognitionStage env st2


end App

/-!  ## Theorems  -/

theorem pymin_eq_min (a b : ℚ) : pymin a b = min a b := (min_def a b).symm

namespace Events

theorem lookupCount_eq_none (s : TrackerState) (id : String) :
    lookupCount s id = none ↔ id ∉ s.map Prod.fst := by
  induction s with
  | nil => simp [lookupCount]
  | cons p rest ih =>
      obtain ⟨k, v⟩ := p
      by_cases h : k = id
      · subst h; simp [lookupCount]
      · simp only [lookupCount, if_neg h, List.map_cons, List.mem_cons, ih]
        constructor
        · intro hn hc
          rcases hc with hc | hc
          · exact h hc.symm
          · exact hn hc
        · intro hn
          exact fun hc => hn (Or.inr hc)

theorem lookupCount_mem {s : TrackerState} {id : String} {v : Int}
    (h : lookupCount s id = some v) : (id, v) ∈ s := by
  induction s with
  | nil => simp [lookupCount] at h
  | cons p rest ih =>
      obtain ⟨k, x⟩ := p
      by_cases hk : k = id
      · subst hk
        simp [lookupCount] at h
        simp [h]
      · simp [lookupCount, hk] at h
        exact List.mem_cons_of_mem _ (ih h)

theorem lookupCount_append_single (s : TrackerState) (id j : String) :
    lookupCount (s ++ [(id, (0 : Int))]) j =
      (lookupCount s j).orElse (fun _ => if id = j then some 0 else none) := by
  induction s with
  | nil => simp [lookupCount, Option.orElse]
  | cons p rest ih =>
      obtain ⟨k, v⟩ := p
      by_cases hk : k = j
      · subst hk; simp [lookupCount, Option.orElse]
      · simpa [lookupCount, hk, Option.orElse] using ih

theorem lookupCount_setCount_self (s : TrackerState) (id : String) (v : Int) :
    lookupCount (setCount s id v) id = some v := by
  induction s with
  | nil => simp [setCount, lookupCount]
  | cons p rest ih =>
      obtain ⟨k, x⟩ := p
      by_cases hk : k = id
      · subst hk; simp [setCount, lookupCount]
      · simp [setCount, lookupCount, hk, ih]

theorem lookupCount_setCount_other (s : TrackerState) (id j : String) (v : Int)
    (h : id ≠ j) : lookupCount (setCount s id v) j = lookupCount s j := by
  induction s with
  | nil => simp [setCount, lookupCount, h]
  | cons p rest ih =>
      obtain ⟨k, x⟩ := p
      by_cases hk : k = id
      · subst hk
        have h' : ¬ k = j := h
        simp [setCount, lookupCount, h']
      · simp [setCount, lookupCount, hk, ih]

theorem lookupCount_clear_self (s : TrackerState) (id : String)
    (hs : (s.map Prod.fst).Nodup) : lookupCount (clear_event s id) id = none := by
  induction s with
  | nil => simp [clear_event, lookupCount]
  | cons p rest ih =>
      obtain ⟨k, v⟩ := p
      simp only [List.map_cons, List.nodup_cons] at hs
      by_cases hk : k = id
      · subst hk
        simp only [clear_event, if_pos rfl]
        rw [lookupCount_eq_none]
        exact hs.1
      · simp [clear_event, lookupCount, hk, ih hs.2]

theorem lookupCount_clear_other (s : TrackerState) (id j : String) (h : id ≠ j) :
    lookupCount (clear_event s id) j = lookupCount s j := by
  induction s with
  | nil => simp [clear_event]
  | cons p rest ih =>
      obtain ⟨k, v⟩ := p
      by_cases hk : k = id
      · subst hk
        have h' : ¬ k = j := h
        simp [clear_event, lookupCount, h']
      · by_cases hj : k = j
        · subst hj; simp [clear_event, lookupCount, hk]
        · simp [clear_event, lookupCount, hk, hj, ih]

theorem setCount_mem {s : TrackerState} {id : String} {v : Int} {p : String × Int}
    (h : p ∈ setCount s id v) : p = (id, v) ∨ p ∈ s := by
  induction s with
  | nil => simpa [setCount] using h
  | cons q rest ih =>
      obtain ⟨k, x⟩ := q
      by_cases hk : k = id
      · subst hk
        simp only [setCount, if_pos rfl] at h
        rcases List.mem_cons.mp h with h | h
        · exact Or.inl h
        · exact Or.inr (List.mem_cons_of_mem _ h)
      · simp only [setCount, if_neg hk] at h
        rcases List.mem_cons.mp h with h | h
        · rw [h]
          exact Or.inr (List.mem_cons_self _ _)
        · rcases ih h with h | h
          · exact Or.inl h
          · exact Or.inr (List.mem_cons_of_mem _ h)

theorem setCount_keys (s : TrackerState) (id : String) (v : Int) :
    (setCount s id v).map Prod.fst =
      if id ∈ s.map Prod.fst then s.map Prod.fst else s.map Prod.fst ++ [id] := by
  induction s with
  | nil => simp [setCount]
  | cons p rest ih =>
      obtain ⟨k, x⟩ := p
      by_cases hk : k = id
      · subst hk; simp [setCount]
      · simp only [setCount, if_neg hk, List.map_cons]
        rw [ih]
        have hk' : ¬ id = k := fun hh => hk hh.symm
        by_cases hm : id ∈ rest.map Prod.fst
        · simp [hm, hk']
        · simp [hm, hk']

theorem clear_event_sublist (s : TrackerState) (id : String) :
    (clear_event s id).Sublist s := by
  induction s with
  | nil => simp [clear_event]
  | cons p rest ih =>
      obtain ⟨k, v⟩ := p
      by_cases hk : k = id
      · subst hk
        simp only [clear_event, if_pos rfl]
        exact List.sublist_cons_self _ _
      · simp only [clear_event, if_neg hk]
        exact ih.cons₂ (k, v)

theorem get_eq_zero_of_absent {s : TrackerState} {id : String}
    (h : lookupCount s id = none) : get_event_attempts s id = 0 := by
  simp [get_event_attempts, h]

theorem get_track_event_start (s : TrackerState) (id j : String) :
    get_event_attempts (track_event_start s id) j = get_event_attempts s j := by
  unfold track_event_start
  cases hl : lookupCount s id with
  | some v => rfl
  | none =>
      unfold get_event_attempts
      rw [lookupCount_append_single]
      cases hj : lookupCount s j with
      | some v => simp [Option.orElse]
      | none =>
          by_cases hij : id = j
          · subst hij
            simp [Option.orElse]
          · simp [Option.orElse, hij]

theorem track_event_start_of_present {s : TrackerState} {id : String} {v : Int}
    (h : lookupCount s id = some v) : track_event_start s id = s := by
  unfold track_event_start
  rw [h]

theorem get_track_event_start_absent {s : TrackerState} {id : String}
    (h : lookupCount s id = none) :
    get_event_attempts (track_event_start s id) id = 0 := by
  rw [get_track_event_start]
  exact get_eq_zero_of_absent h

theorem track_event_start_idem (s : TrackerState) (id : String) :
    track_event_start (track_event_start s id) id = track_event_start s id := by
  unfold track_event_start
  cases hl : lookupCount s id with
  | some v => rw [hl]
  | none =>
      rw [lookupCount_append_single, hl]
      simp [Option.orElse]

theorem get_increment_self (s : TrackerState) (id : String) :
    get_event_attempts (increment_event_attempt s id).1 id =
      get_event_attempts s id + 1 := by
  unfold increment_event_attempt get_event_attempts
  rw [lookupCount_setCount_self]
  rfl

theorem get_increment_other (s : TrackerState) (id j : String) (h : id ≠ j) :
    get_event_attempts (increment_event_attempt s id).1 j =
      get_event_attempts s j := by
  unfold increment_event_attempt get_event_attempts
  rw [lookupCount_setCount_other _ _ _ _ h]

theorem clear_event_of_absent {s : TrackerState} {id : String}
    (h : lookupCount s id = none) : clear_event s id = s := by
  induction s with
  | nil => rfl
  | cons p rest ih =>
      obtain ⟨k, v⟩ := p
      by_cases hk : k = id
      · subst hk; simp [lookupCount] at h
      · simp only [lookupCount, if_neg hk] at h
        simp [clear_event, hk, ih h]

theorem WF_track_event_start {s : TrackerState} (hs : WF s) (id : String) :
    WF (track_event_start s id) := by
  unfold track_event_start
  cases hl : lookupCount s id with
  | some v => exact hs
  | none =>
      obtain ⟨hnd, hpos⟩ := hs
      refine ⟨?_, ?_⟩
      · rw [List.map_append]
        refine List.Nodup.append hnd (by simp) ?_
        intro a ha hb
        simp at hb
        subst hb
        exact (lookupCount_eq_none s a).mp hl ha
      · intro p hp
        rcases List.mem_append.mp hp with hp | hp
        · exact hpos p hp
        · simp at hp
          simp [hp]

theorem WF_increment {s : TrackerState} (hs : WF s) (id : String) :
    WF (increment_event_attempt s id).1 := by
  obtain ⟨hnd, hpos⟩ := hs
  unfold increment_event_attempt
  refine ⟨?_, ?_⟩
  · rw [setCount_keys]
    by_cases hm : id ∈ s.map Prod.fst
    · simpa [hm] using hnd
    · simp only [hm, if_neg]
      refine List.Nodup.append hnd (by simp) ?_
      intro a ha hb
      simp at hb
      subst hb
      exact hm ha
  · intro p hp
    rcases setCount_mem hp with hp | hp
    · rw [hp]
      have : 0 ≤ get_event_attempts s id := by
        unfold get_event_attempts
        cases hl : lookupCount s id with
        | none => simp
        | some v =>
            have := hpos _ (lookupCount_mem hl)
            simpa using this
      simpa using by linarith
    · exact hpos p hp

theorem WF_clear_event {s : TrackerState} (hs : WF s) (id : String) :
    WF (clear_event s id) := by
  obtain ⟨hnd, hpos⟩ := hs
  have hsub := clear_event_sublist s id
  exact ⟨List.Nodup.sublist (hsub.map Prod.fst) hnd,
    fun p hp => hpos p (hsub.mem hp)⟩

theorem WF_applyOp {s : TrackerState} (hs : WF s) (op : TrackerOp) :
    WF (applyOp op s) := by
  cases op with
  | start id => exact WF_track_event_start hs id
  | increment id => exact WF_increment hs id
  | read id => exact hs
  | clear id => exact WF_clear_event hs id
  | reset => exact ⟨List.nodup_nil, by simp [applyOp, reset]⟩

/-- A single operation that is neither `clear i` nor `reset` never decreases
the counter of `i`. -/
theorem get_mono_applyOp (s : TrackerState) (op : TrackerOp) (i : String)
    (hclear : op ≠ TrackerOp.clear i) (hreset : op ≠ TrackerOp.reset) :
    get_event_attempts s i ≤ get_event_attempts (applyOp op s) i := by
  cases op with
  | start id => rw [applyOp, get_track_event_start]
  | increment id =>
      by_cases hij : id = i
      · subst hij
        rw [applyOp, get_increment_self]
        linarith
      · rw [applyOp, get_increment_other _ _ _ hij]
  | read id => exact le_refl _
  | clear id =>
      have hij : id ≠ i := fun hh => hclear (by rw [hh])
      rw [applyOp]
      unfold get_event_attempts
      rw [lookupCount_clear_other _ _ _ hij]
  | reset => exact absurd rfl hreset

theorem get_mono_applyOps (ops : List TrackerOp) (s : TrackerState) (i : String)
    (h : ∀ o ∈ ops, o ≠ TrackerOp.clear i ∧ o ≠ TrackerOp.reset) :
    get_event_attempts s i ≤ get_event_attempts (applyOps ops s) i := by
  induction ops generalizing s with
  | nil => exact le_refl _
  | cons o rest ih =>
      have ho := h o (List.mem_cons_self _ _)
      calc get_event_attempts s i
          ≤ get_event_attempts (applyOp o s) i :=
            get_mono_applyOp s o i ho.1 ho.2
        _ ≤ get_event_attempts (applyOps rest (applyOp o s)) i :=
            ih (applyOp o s) (fun o' ho' => h o' (List.mem_cons_of_mem _ ho'))

end Events

namespace App

open Events

/-- Under the admission hypotheses (not the first message, a non-terminal
message kind, not filtered, not a store duplicate, license-plate gate
passed, snapshot available), a traversal reaches the recognition stage with
an unchanged attempt count for the event. -/
theorem process_reaches_recognition (env : PipelineEnv) (st : TrackerState)
    (h1 : env.firstMessage = false) (h2 : env.messageType ≠ "end")
    (h3 : env.invalidEvent = false) (h4 : env.duplicateEvent = false)
    (h5 : env.frigatePlus = false ∨ env.validLicensePlate = true)
    (h6 : env.hasSnapshot = true) (h7 : env.snapshotOk = true) :
    ∃ st2, process_message_inner env st = recognitionStage env st2 ∧
      get_event_attempts st2 env.eventId = get_event_attempts st env.eventId := by
  unfold process_message_inner
  by_cases ht : is_event_tracked st env.eventId
  · refine ⟨st, ?_, rfl⟩
    rcases h5 with h | h <;> simp [h1, h2, h3, h4, h6, h7, h, ht]
  · refine ⟨track_event_start st env.eventId, ?_, by rw [get_track_event_start]⟩
    rcases h5 with h | h <;> simp [h1, h2, h3, h4, h6, h7, h, ht]

end App

namespace Recognition

/-- C3: whenever the top plate is non-empty and its case-insensitive text
equals some watch-list entry (case-insensitively), `check_watched_plates`
returns an entirely empty match — for every candidate list, every similarity
function and every fuzzy threshold, so tiers 2 and 3 can never override the
tier-1 suppression. -/
theorem c3_tier1_suppression (sim : String → String → ℚ) (pn : String)
    (cands : List Candidate) (cfg : WatchConfig)
    (hpn : pn ≠ "") (hw : pyLower pn ∈ watchedLower cfg) :
    check_watched_plates sim (some pn) cands cfg = (none, none, none) := by
  have hne : cfg.watched_plates ≠ [] := by
    intro h
    rw [watchedLower, h] at hw
    simp at hw
  unfold check_watched_plates
  simp [hpn, hne, hw]

/-- Witness for C3: a mixed-case top plate equal (case-insensitively) to a
mixed-case watch-list entry is suppressed even though the candidate list and
the fuzzy tier (threshold 1, similarity constantly 1) would both match. -/
theorem c3_tier1_suppression_witness :
    ("ABC123" : String) ≠ "" ∧
    pyLower "ABC123" ∈ watchedLower ⟨["aBc123"], 1, true⟩ ∧
    check_watched_plates (fun _ _ => 1) (some "ABC123")
      [⟨some "aBc123", none, some 1, some 1⟩] ⟨["aBc123"], 1, true⟩ =
      (none, none, none) :=
  ⟨by decide, by decide,
    c3_tier1_suppression (fun _ _ => 1) "ABC123"
      [⟨some "aBc123", none, some 1, some 1⟩] ⟨["aBc123"], 1, true⟩
      (by decide) (by decide)⟩

end Recognition

namespace Pipeline

/-- C10: the minimum-score floor of `get_plate` fires only when both the
configured minimum and the returned score are truthy: a recognition whose
`plate_score` is `None` or exactly `0` is never rejected (even for a positive
minimum), and an unset or zero `min_score` never rejects anything. -/
theorem c10_floor_requires_truthy (min_score : Option ℚ)
    (r : Recognition.RecResult)
    (h : r.plate_score = none ∨ r.plate_score = some 0 ∨
         min_score = none ∨ min_score = some 0) :
    get_plate min_score r = r := by
  have hstl : score_too_low min_score r.plate_score = false := by
    rcases h with h | h | h | h
    · cases min_score <;> simp [score_too_low, h]
    · cases min_score <;> simp [score_too_low, h]
    · cases r.plate_score <;> simp [score_too_low, h]
    · cases r.plate_score <;> simp [score_too_low, h]
  unfold get_plate
  simp [hstl]

/-- Witness for C10: a zero returned score survives a positive configured
minimum. -/
theorem c10_floor_requires_truthy_witness :
    get_plate (some 1) ⟨some "AB12CD", some 0, none, none⟩ =
      ⟨some "AB12CD", some 0, none, none⟩ :=
  c10_floor_requires_truthy (some 1) ⟨some "AB12CD", some 0, none, none⟩
    (Or.inr (Or.inl rfl))

end Pipeline

namespace EventFilters

theorem matching_zone_eq_false_iff (config : FilterConfig) (after_data : EventData) :
    matching_zone config after_data = false ↔
      (config.zones ≠ [] ∧ ∀ z ∈ config.zones, z ∉ after_data.currentZones) := by
  unfold matching_zone
  by_cases hz : config.zones = [] <;> simp [hz]

theorem matching_camera_eq_false_iff (config : FilterConfig) (after_data : EventData) :
    matching_camera config after_data = false ↔
      (config.camera ≠ [] ∧ optMemStr after_data.camera config.camera = false) := by
  unfold matching_camera
  by_cases hc : config.camera = [] <;> simp [hc]

/-- C7: `check_invalid_event` rejects if and only if (a) the configured zone
list is non-empty and disjoint from the event's current zones, or (b) the
configured camera list is non-empty and does not contain the event's camera,
or (c) the event's label is not in the configured valid-object set (default
car / motorcycle / bus), or (d) the attribute-scoring feature is disabled,
the before/after top scores are equal and the event is already tracked. -/
theorem c7_invalid_event_iff (config : FilterConfig)
    (before_data after_data : EventData) (is_tracked : Bool) :
    check_invalid_event config before_data after_data is_tracked = true ↔
      ((config.zones ≠ [] ∧ ∀ z ∈ config.zones, z ∉ after_data.currentZones) ∨
       (config.camera ≠ [] ∧ optMemStr after_data.camera config.camera = false) ∨
       optMemStr after_data.label (config.objects.getD DEFAULT_OBJECTS) = false ∨
       (config.frigatePlus = false ∧
         before_data.topScore = after_data.topScore ∧ is_tracked = true)) := by
  unfold check_invalid_event
  cases hmz : matching_zone config after_data with
  | false =>
      simp only [hmz, Bool.false_eq_true, false_and, not_false_eq_true, if_pos]
      simp only [true_iff]
      exact Or.inl ((matching_zone_eq_false_iff config after_data).mp hmz)
  | true =>
      cases hmc : matching_camera config after_data with
      | false =>
          simp only [hmz, hmc, Bool.false_eq_true, and_false, not_false_eq_true,
            if_pos]
          simp only [true_iff]
          exact Or.inr
            (Or.inl ((matching_camera_eq_false_iff config after_data).mp hmc))
      | true =>
          simp only [hmz, hmc, and_self, not_true_eq_false, if_neg,
            not_false_eq_true]
          cases hl : optMemStr after_data.label (config.objects.getD DEFAULT_OBJECTS) with
          | false =>
              simp only [hl, Bool.false_eq_true, not_false_eq_true, if_pos]
              simp only [true_iff]
              exact Or.inr (Or.inr (Or.inl trivial))
          | true =>
              simp only [hl, not_true_eq_false, if_neg, not_false_eq_true]
              by_cases hd : before_data.topScore = after_data.topScore ∧
                  is_tracked = true ∧ config.frigatePlus = false
              · rw [if_pos (by simpa [and_comm, and_left_comm] using hd)]
                simp only [true_iff]
                exact Or.inr (Or.inr (Or.inr ⟨hd.2.2, hd.1, hd.2.1⟩))
              · rw [if_neg (by
                  intro h
                  exact hd ⟨h.1, by simpa using h.2.1, by simpa using h.2.2⟩)]
                simp only [Bool.false_eq_true, false_iff]
                intro hcon
                rcases hcon with h | h | h | h
                · have := (matching_zone_eq_false_iff config after_data).mpr h
                  rw [hmz] at this
                  exact Bool.true_eq_false.mp this
                · have := (matching_camera_eq_false_iff config after_data).mpr h
                  rw [hmc] at this
                  exact Bool.true_eq_false.mp this
                · exact Bool.true_eq_false.mp h
                · exact hd ⟨h.2.1, h.2.2, h.1⟩

/-- Witness for C7 (forward direction at a concrete rejection): a label
outside the default valid-object set is rejected. -/
theorem c7_invalid_event_iff_witness :
    check_invalid_event ⟨[], [], none, false⟩ ⟨[], none, none, none⟩
      ⟨[], some "cam", some "tree", some 1⟩ false = true :=
  (c7_invalid_event_iff ⟨[], [], none, false⟩ ⟨[], none, none, none⟩
      ⟨[], some "cam", some "tree", some 1⟩ false).mpr
    (Or.inr (Or.inr (Or.inl (by decide))))

end EventFilters

namespace Events

/-- C9 counterexample: the claim says a counter never decreases except by
being removed via `clear`, but `reset` (one of the five listed operations)
also removes counters: applying `reset` to a state tracking `"evt"` at 3
drops that identifier's reading from 3 to 0, and `reset` is not a `clear`. -/
theorem c9_reset_counterexample :
    get_event_attempts (applyOp TrackerOp.reset [("evt", (3 : Int))]) "evt" <
      get_event_attempts ([("evt", (3 : Int))] : TrackerState) "evt" ∧
    ∀ i : String, TrackerOp.reset ≠ TrackerOp.clear i := by
  constructor
  · decide
  · intro i h
    exact TrackerOp.noConfusion h

/-- C9 (amended): every EventTracker operation preserves the invariants (at
most one record per identifier, counts nonnegative); an absent identifier
reads as 0; `start` is idempotent, creates at 0 only if absent and never
resets an existing count; `clear` of an absent identifier is a no-op; and
across any sequence of operations a given identifier's counter never
decreases except by being removed via `clear` of that identifier or by the
global `reset`. -/
theorem c9_tracker_invariants_amended :
    (∀ (s : TrackerState) (op : TrackerOp), WF s → WF (applyOp op s)) ∧
    (∀ (s : TrackerState) (id : String),
       lookupCount s id = none → get_event_attempts s id = 0) ∧
    (∀ (s : TrackerState) (id : String),
       track_event_start (track_event_start s id) id = track_event_start s id) ∧
    (∀ (s : TrackerState) (id : String) (v : Int),
       lookupCount s id = some v → track_event_start s id = s) ∧
    (∀ (s : TrackerState) (id : String),
       lookupCount s id = none →
         get_event_attempts (track_event_start s id) id = 0) ∧
    (∀ (s : TrackerState) (id : String),
       lookupCount s id = none → clear_event s id = s) ∧
    (∀ (ops : List TrackerOp) (s : TrackerState) (i : String),
       (∀ o ∈ ops, o ≠ TrackerOp.clear i ∧ o ≠ TrackerOp.reset) →
       get_event_attempts s i ≤ get_event_attempts (applyOps ops s) i) :=
  ⟨fun _ op hs => WF_applyOp hs op,
   fun _ _ h => get_eq_zero_of_absent h,
   fun s id => track_event_start_idem s id,
   fun _ _ _ h => track_event_start_of_present h,
   fun _ _ h => get_track_event_start_absent h,
   fun _ _ h => clear_event_of_absent h,
   fun ops s i h => get_mono_applyOps ops s i h⟩

/-- Witness for C9 (amended), at concrete states and operation sequences. -/
theorem c9_tracker_invariants_amended_witness :
    WF (applyOp (TrackerOp.increment "evt") [("evt", (0 : Int))]) ∧
    get_event_attempts ([("other", (2 : Int))] : TrackerState) "evt" = 0 ∧
    get_event_attempts ([("evt", (2 : Int))] : TrackerState) "evt" ≤
      get_event_attempts
        (applyOps [TrackerOp.increment "evt", TrackerOp.start "evt",
          TrackerOp.clear "other"] [("evt", (2 : Int))]) "evt" :=
  ⟨c9_tracker_invariants_amended.1 [("evt", 0)] (TrackerOp.increment "evt")
      ⟨by decide, by decide⟩,
   c9_tracker_invariants_amended.2.1 [("other", 2)] "evt" (by decide),
   c9_tracker_invariants_amended.2.2.2.2.2.2
     [TrackerOp.increment "evt", TrackerOp.start "evt", TrackerOp.clear "other"]
     [("evt", 2)] "evt" (by decide)⟩

end Events

namespace App

open Events

/-- C2: with the admission gates passed (non-first, non-terminal, unfiltered,
not a store duplicate, license gate passed, snapshot available): if
`max_attempts > 0` and the tracked attempt count has already reached it, the
traversal returns `max_attempts` without incrementing the attempt counter
and without calling the recognition backend; if `max_attempts = 0` the
ceiling is never applied and the recognition backend is called. -/
theorem c2_max_attempts_bound (env : PipelineEnv) (st : TrackerState)
    (h1 : env.firstMessage = false) (h2 : env.messageType ≠ "end")
    (h3 : env.invalidEvent = false) (h4 : env.duplicateEvent = false)
    (h5 : env.frigatePlus = false ∨ env.validLicensePlate = true)
    (h6 : env.hasSnapshot = true) (h7 : env.snapshotOk = true) :
    (0 < env.maxAttempts →
      env.maxAttempts ≤ get_event_attempts st env.eventId →
      (process_message_inner env st).1 = "max_attempts" ∧
      (process_message_inner env st).2.2.recognitionCalled = false ∧
      get_event_attempts (process_message_inner env st).2.1 env.eventId =
        get_event_attempts st env.eventId) ∧
    (env.maxAttempts = 0 →
      (process_message_inner env st).2.2.recognitionCalled = true ∧
      (process_message_inner env st).1 ≠ "max_attempts") := by
  obtain ⟨st2, heq, hget⟩ :=
    process_reaches_recognition env st h1 h2 h3 h4 h5 h6 h7
  rw [heq]
  constructor
  · intro hpos hge
    have hcond : 0 < env.maxAttempts ∧
        env.maxAttempts ≤ get_event_attempts st2 env.eventId :=
      ⟨hpos, by rw [hget]; exact hge⟩
    unfold recognitionStage
    rw [if_pos hcond]
    exact ⟨rfl, rfl, hget⟩
  · intro h0
    have hcond : ¬(0 < env.maxAttempts ∧
        env.maxAttempts ≤ get_event_attempts st2 env.eventId) := by
      rw [h0]
      intro hc
      exact lt_irrefl 0 hc.1
    unfold recognitionStage
    rw [if_neg hcond]
    by_cases ht :
        truthyStr (Pipeline.get_plate env.min_score env.recResult).plate_number
    · simp only [if_pos ht]
      refine ⟨by simp, ?_⟩
      cases env.storeResult <;> simp [tryStorePlate, Storage.insert_plate]
    · simp only [if_neg ht]
      exact ⟨by simp, by simp⟩

/-- Witness for C2 at a concrete environment and tracker state. -/
theorem c2_max_attempts_bound_witness :
    (process_message_inner
      ⟨false, "update", "evt", false, false, false, true, true, true, 2,
        some 1, ⟨some "AB12CD", some 1, none, none⟩, Storage.StoreResult.ok,
        false⟩ [("evt", 2)]).1 = "max_attempts" ∧
    (process_message_inner
      ⟨false, "update", "evt", false, false, false, true, true, true, 2,
        some 1, ⟨some "AB12CD", some 1, none, none⟩, Storage.StoreResult.ok,
        false⟩ [("evt", 2)]).2.2.recognitionCalled = false := by
  have h := c2_max_attempts_bound
    ⟨false, "update", "evt", false, false, false, true, true, true, 2,
      some 1, ⟨some "AB12CD", some 1, none, none⟩, Storage.StoreResult.ok,
      false⟩ [("evt", 2)]
    rfl (by decide) rfl rfl (Or.inl rfl) rfl rfl
  have h2 := h.1 (by decide) (by decide)
  exact ⟨h2.1, h2.2.1⟩

end App

namespace App

open Events

/-- C1: when a traversal passes the admission gates and the attempt bound,
and a plate number was recognized, the persistence step maps the store's
verdict to the outcome: a successful insert yields `success`, a
unique-constraint rejection yields `duplicate_event` (a normal return value
of `insert_plate`, not an exception), and any other storage failure — in
which `insert_plate` raises — yields `db_error` with the exception caught
rather than propagated; in all three cases the sublabel push and the
downstream publish still occur. -/
theorem c1_persistence_outcomes (env : PipelineEnv) (st : TrackerState)
    (h1 : env.firstMessage = false) (h2 : env.messageType ≠ "end")
    (h3 : env.invalidEvent = false) (h4 : env.duplicateEvent = false)
    (h5 : env.frigatePlus = false ∨ env.validLicensePlate = true)
    (h6 : env.hasSnapshot = true) (h7 : env.snapshotOk = true)
    (h8 : env.maxAttempts ≤ 0 ∨
      get_event_attempts st env.eventId < env.maxAttempts)
    (h9 : truthyStr
      (Pipeline.get_plate env.min_score env.recResult).plate_number = true) :
    ((process_message_inner env st).1 =
      match env.storeResult with
      | Storage.StoreResult.ok => "success"
      | Storage.StoreResult.integrityError => "duplicate_event"
      | Storage.StoreResult.otherError => "db_error") ∧
    (Storage.insert_plate env.storeResult = Except.error () →
      (process_message_inner env st).1 = "db_error") ∧
    (process_message_inner env st).2.2.sublabelPushed = true ∧
    (process_message_inner env st).2.2.published = true := by
  obtain ⟨st2, heq, hget⟩ :=
    process_reaches_recognition env st h1 h2 h3 h4 h5 h6 h7
  rw [heq]
  have hcond : ¬(0 < env.maxAttempts ∧
      env.maxAttempts ≤ get_event_attempts st2 env.eventId) := by
    rintro ⟨hpos, hle⟩
    rw [hget] at hle
    rcases h8 with h | h
    · exact absurd hpos (not_lt.mpr h)
    · exact absurd hle (not_le.mpr h)
  unfold recognitionStage
  rw [if_neg hcond]
  simp only [if_pos h9]
  refine ⟨?_, ?_, by simp, by simp⟩
  · cases env.storeResult <;> rfl
  · intro herr
    cases hsr : env.storeResult
    · rw [hsr] at herr
      exact absurd herr (by simp [Storage.insert_plate])
    · rw [hsr] at herr
      exact absurd herr (by simp [Storage.insert_plate])
    · rfl

/-- Witness for C1: a concrete traversal in which the store raises a
non-integrity error ends in outcome `db_error` with sublabel and publish
still performed. -/
theorem c1_persistence_outcomes_witness :
    (process_message_inner
      ⟨false, "update", "evt", false, false, false, true, true, true, 0,
        some 1, ⟨some "AB12CD", some 1, none, none⟩,
        Storage.StoreResult.otherError, false⟩ []).1 = "db_error" ∧
    (process_message_inner
      ⟨false, "update", "evt", false, false, false, true, true, true, 0,
        some 1, ⟨some "AB12CD", some 1, none, none⟩,
        Storage.StoreResult.otherError, false⟩ []).2.2.published = true := by
  have h := c1_persistence_outcomes
    ⟨false, "update", "evt", false, false, false, true, true, true, 0,
      some 1, ⟨some "AB12CD", some 1, none, none⟩,
      Storage.StoreResult.otherError, false⟩ []
    rfl (by decide) rfl rfl (Or.inl rfl) rfl rfl (Or.inl (by decide))
    (by decide)
  exact ⟨h.1, h.2.2.2⟩

end App

namespace App

open Events

/-- C6 counterexample: a returned confidence score of exactly 0 is below the
configured minimum of 1, no fuzzy match is present, yet `get_plate` does not
empty the result (Python truthiness: `plate_score` 0 is falsy) and the
pipeline outcome of a full traversal is `success`, not `no_plate`. -/
theorem c6_zero_score_counterexample :
    (0 : ℚ) < 1 ∧
    Pipeline.get_plate (some 1) ⟨some "AB12CD", some 0, none, none⟩ =
      ⟨some "AB12CD", some 0, none, none⟩ ∧
    (process_message_inner
      ⟨false, "update", "evt", false, false, false, true, true, true, 0,
        some 1, ⟨some "AB12CD", some 0, none, none⟩, Storage.StoreResult.ok,
        false⟩ []).1 = "success" := by
  refine ⟨by decide, by decide, by decide⟩

/-- C6 (amended): for every recognition whose returned confidence score is
positive and below the configured minimum, with the admission gates and the
attempt bound passed: if no fuzzy watch-list match is present, `get_plate`
returns all fields absent and the traversal outcome is `no_plate` (nothing
is published); if a nonzero fuzzy match is present, the recognition is
exempt from the score floor and processing proceeds to persistence. -/
theorem c6_score_floor_amended (env : PipelineEnv) (st : TrackerState)
    (h1 : env.firstMessage = false) (h2 : env.messageType ≠ "end")
    (h3 : env.invalidEvent = false) (h4 : env.duplicateEvent = false)
    (h5 : env.frigatePlus = false ∨ env.validLicensePlate = true)
    (h6 : env.hasSnapshot = true) (h7 : env.snapshotOk = true)
    (h8 : env.maxAttempts ≤ 0 ∨
      get_event_attempts st env.eventId < env.maxAttempts)
    (m s : ℚ) (hm : env.min_score = some m)
    (hs : env.recResult.plate_score = some s)
    (h0 : 0 < s) (hlt : s < m) :
    ((env.recResult.fuzzy_score = none ∨ env.recResult.fuzzy_score = some 0) →
      Pipeline.get_plate env.min_score env.recResult = Recognition.emptyRec ∧
      (process_message_inner env st).1 = "no_plate" ∧
      (process_message_inner env st).2.2.published = false) ∧
    (∀ f : ℚ, env.recResult.fuzzy_score = some f → f ≠ 0 →
      Pipeline.get_plate env.min_score env.recResult = env.recResult ∧
      (truthyStr env.recResult.plate_number = true →
        (process_message_inner env st).1 = tryStorePlate env.storeResult ∧
        (process_message_inner env st).2.2.sublabelPushed = true ∧
        (process_message_inner env st).2.2.published = true)) := by
  obtain ⟨st2, heq, hget⟩ :=
    process_reaches_recognition env st h1 h2 h3 h4 h5 h6 h7
  have hcond : ¬(0 < env.maxAttempts ∧
      env.maxAttempts ≤ get_event_attempts st2 env.eventId) := by
    rintro ⟨hpos, hle⟩
    rw [hget] at hle
    rcases h8 with h | h
    · exact absurd hpos (not_lt.mpr h)
    · exact absurd hle (not_le.mpr h)
  have hstl : Pipeline.score_too_low env.min_score env.recResult.plate_score
      = true := by
    rw [hm, hs]
    simp [Pipeline.score_too_low, ne_of_gt h0, ne_of_gt (h0.trans hlt), hlt]
  constructor
  · intro hf
    have hfl : truthyNum env.recResult.fuzzy_score = false := by
      rcases hf with hf | hf <;> simp [truthyNum, hf]
    have hdrop : Pipeline.get_plate env.min_score env.recResult =
        Recognition.emptyRec := by
      unfold Pipeline.get_plate
      rw [hfl, hstl]
      simp
    refine ⟨hdrop, ?_, ?_⟩ <;>
    · rw [heq]
      unfold recognitionStage
      rw [if_neg hcond]
      simp only [hdrop]
      simp [Recognition.emptyRec, truthyStr]
  · intro f hf hf0
    have hfl : truthyNum env.recResult.fuzzy_score = true := by
      simp [truthyNum, hf, hf0]
    have hkeep : Pipeline.get_plate env.min_score env.recResult =
        env.recResult := by
      unfold Pipeline.get_plate
      rw [hfl]
      simp
    refine ⟨hkeep, ?_⟩
    intro htr
    rw [heq]
    unfold recognitionStage
    rw [if_neg hcond]
    simp only [hkeep]
    rw [if_pos htr]
    exact ⟨rfl, rfl, rfl⟩

/-- Witness for C6 (amended): score 1 below minimum 2, no fuzzy match, at a
concrete environment — the traversal ends in `no_plate`. -/
theorem c6_score_floor_amended_witness :
    Pipeline.get_plate (some 2) ⟨some "AB12CD", some 1, none, none⟩ =
      Recognition.emptyRec ∧
    (process_message_inner
      ⟨false, "update", "evt", false, false, false, true, true, true, 0,
        some 2, ⟨some "AB12CD", some 1, none, none⟩, Storage.StoreResult.ok,
        false⟩ []).1 = "no_plate" := by
  have h := (c6_score_floor_amended
    ⟨false, "update", "evt", false, false, false, true, true, true, 0,
      some 2, ⟨some "AB12CD", some 1, none, none⟩, Storage.StoreResult.ok,
      false⟩ []
    rfl (by decide) rfl rfl (Or.inl rfl) rfl rfl (Or.inl (by decide))
    2 1 rfl rfl (by decide) (by decide)).1 (Or.inl rfl)
  exact ⟨h.1, h.2.1⟩

end App

namespace Recognition

/-- The step-2 scan returns exactly the first entry (in list order) of the
enumerated candidate list that matches the watch set and, for the
CodeProject.AI backend, does not sit at index 0. -/
theorem scanCandidates_eq (isPR : Bool) (watched : List String) (idx : ℕ)
    (l : List Candidate) :
    scanCandidates isPR watched idx l =
      (((List.enumFrom idx l).filter
          (fun p => (matchedText watched p.2).isSome &&
            (isPR || decide (p.1 ≠ 0)))).head?).map
        (fun p => ((matchedText watched p.2).getD "",
          if isPR then p.2.score else p.2.confidence)) := by
  induction l generalizing idx with
  | nil => rfl
  | cons c rest ih =>
      cases hm : matchedText watched c with
      | none =>
          simp only [scanCandidates, hm, List.enumFrom, List.filter_cons]
          simp [hm, ih]
      | some s =>
          cases isPR with
          | true =>
              simp [scanCandidates, hm, List.enumFrom, List.filter_cons]
          | false =>
              by_cases hidx : idx = 0
              · subst hidx
                simp only [scanCandidates, hm]
                rw [ih]
                simp [List.enumFrom, List.filter_cons, hm]
              · simp [scanCandidates, hm, hidx, List.enumFrom, List.filter_cons]

/-- C4: when tier 1 does not fire, `check_watched_plates` returns the first
candidate (in list order) whose plate text case-insensitively matches a
watch-list entry — candidates at index 0 being excluded for the
CodeProject.AI backend — carrying that candidate's own confidence field
(`score` for Plate Recognizer, `confidence` for CodeProject.AI), with no
fuzzy component, for every similarity function and fuzzy threshold (tier 3
is not evaluated). -/
theorem c4_tier2_first_candidate (sim : String → String → ℚ)
    (cfg : WatchConfig) (pn : String) (cands : List Candidate)
    (i : ℕ) (c : Candidate) (s : String)
    (hpn : pn ≠ "") (hw : cfg.watched_plates ≠ [])
    (ht1 : pyLower pn ∉ watchedLower cfg)
    (hfirst : ((List.enumFrom 0 cands).filter
        (fun p => (matchedText (watchedLower cfg) p.2).isSome &&
          (cfg.plate_recognizer || decide (p.1 ≠ 0)))).head? = some (i, c))
    (hs : matchedText (watchedLower cfg) c = some s) :
    check_watched_plates sim (some pn) cands cfg =
      (some s, if cfg.plate_recognizer then c.score else c.confidence, none) := by
  unfold check_watched_plates
  simp only [hpn, hw, ht1, if_neg, ite_false]
  rw [scanCandidates_eq, hfirst]
  simp [hs]

/-- Witness for C4 at the spec's own example: top plate `ABC123`, candidates
`XYZ999` then `DEF456`, watch list `def456` (Plate Recognizer backend) —
the match is `DEF456` with that candidate's `score` field. -/
theorem c4_tier2_first_candidate_witness :
    check_watched_plates (fun _ _ => 0) (some "ABC123")
      [⟨some "XYZ999", none, some 9, none⟩, ⟨some "DEF456", none, some 8, none⟩]
      ⟨["def456"], 0, true⟩ =
      (some "DEF456",
        if (⟨["def456"], 0, true⟩ : WatchConfig).plate_recognizer then
          (⟨some "DEF456", none, some 8, none⟩ : Candidate).score
        else (⟨some "DEF456", none, some 8, none⟩ : Candidate).confidence,
        none) :=
  c4_tier2_first_candidate (fun _ _ => 0) ⟨["def456"], 0, true⟩ "ABC123"
    [⟨some "XYZ999", none, some 9, none⟩, ⟨some "DEF456", none, some 8, none⟩]
    1 ⟨some "DEF456", none, some 8, none⟩ "DEF456"
    (by decide) (by decide) (by decide) (by decide) (by decide)

end Recognition

namespace Recognition

theorem fuzzyBest_snd_le (sim : String → String → ℚ) (p : String)
    (l : List String) (acc : Option String × ℚ) :
    acc.2 ≤ (l.foldl (fuzzyStep sim p) acc).2 := by
  induction l generalizing acc with
  | nil => exact le_refl _
  | cons w rest ih =>
      rw [List.foldl_cons]
      refine le_trans ?_ (ih (fuzzyStep sim p acc w))
      unfold fuzzyStep
      split
      · exact le_of_lt (by assumption)
      · exact le_refl _

theorem fuzzyBest_mem_le (sim : String → String → ℚ) (p : String)
    (l : List String) (acc : Option String × ℚ) :
    ∀ w ∈ l, sim p w ≤ (l.foldl (fuzzyStep sim p) acc).2 := by
  induction l generalizing acc with
  | nil =>
      intro w hw
      simp at hw
  | cons v rest ih =>
      intro w hw
      rw [List.foldl_cons]
      rcases List.mem_cons.mp hw with h | h
      · subst h
        refine le_trans ?_ (fuzzyBest_snd_le sim p rest (fuzzyStep sim p acc w))
        unfold fuzzyStep
        split
        · exact le_refl _
        · exact not_lt.mp (by assumption)
      · exact ih (fuzzyStep sim p acc v) w h

theorem fuzzyBest_eq_acc_or_mem (sim : String → String → ℚ) (p : String)
    (l : List String) (acc : Option String × ℚ) :
    l.foldl (fuzzyStep sim p) acc = acc ∨
    ∃ w ∈ l, l.foldl (fuzzyStep sim p) acc = (some w, sim p w) := by
  induction l generalizing acc with
  | nil => exact Or.inl rfl
  | cons v rest ih =>
      rcases ih (fuzzyStep sim p acc v) with h | ⟨w, hw, h⟩
      · by_cases hc : sim p v > acc.2
        · refine Or.inr ⟨v, List.mem_cons_self _ _, ?_⟩
          rw [List.foldl_cons, h]
          unfold fuzzyStep
          rw [if_pos hc]
        · refine Or.inl ?_
          rw [List.foldl_cons, h]
          unfold fuzzyStep
          rw [if_neg hc]
      · refine Or.inr ⟨w, List.mem_cons_of_mem _ hw, ?_⟩
        rw [List.foldl_cons]
        exact h

/-- C5: with tiers 1 and 2 missing and no empty watch-list entries: if a
fuzzy threshold > 0 is configured, `check_watched_plates` returns a
maximum-similarity watch-list entry paired with its ratio (and no
recognition score) exactly when that maximum is at or above the threshold,
and an entirely empty match otherwise; with the threshold unset (0) it
always returns an entirely empty match. -/
theorem c5_tier3_fuzzy (sim : String → String → ℚ) (cfg : WatchConfig)
    (pn : String) (cands : List Candidate)
    (hpn : pn ≠ "") (hw : cfg.watched_plates ≠ [])
    (ht1 : pyLower pn ∉ watchedLower cfg)
    (ht2 : scanCandidates cfg.plate_recognizer (watchedLower cfg) 0 cands = none)
    (hemp : ∀ w ∈ watchedLower cfg, w ≠ "") :
    (0 < cfg.fuzzy_match →
      ((∃ w ∈ watchedLower cfg,
          check_watched_plates sim (some pn) cands cfg =
            (some w, none, some (sim (pyLower pn) w)) ∧
          cfg.fuzzy_match ≤ sim (pyLower pn) w ∧
          ∀ w2 ∈ watchedLower cfg, sim (pyLower pn) w2 ≤ sim (pyLower pn) w) ∨
       (check_watched_plates sim (some pn) cands cfg = (none, none, none) ∧
        ∀ w ∈ watchedLower cfg, sim (pyLower pn) w < cfg.fuzzy_match))) ∧
    (cfg.fuzzy_match = 0 →
      check_watched_plates sim (some pn) cands cfg = (none, none, none)) := by
  have hunf : check_watched_plates sim (some pn) cands cfg =
      (if cfg.fuzzy_match = 0 then (none, none, none)
       else
         match (fuzzyBest sim (pyLower pn) (watchedLower cfg)).1 with
         | some w =>
             if w ≠ "" ∧
                 (fuzzyBest sim (pyLower pn) (watchedLower cfg)).2 ≥
                   cfg.fuzzy_match then
               (some w, none,
                some (fuzzyBest sim (pyLower pn) (watchedLower cfg)).2)
             else (none, none, none)
         | none => (none, none, none)) := by
    unfold check_watched_plates
    simp only [hpn, hw, ht1, if_neg, ite_false, ht2]
  constructor
  · intro hpos
    rw [hunf, if_neg (ne_of_gt hpos)]
    rcases fuzzyBest_eq_acc_or_mem sim (pyLower pn) (watchedLower cfg)
        (none, 0) with hacc | ⟨w, hwmem, hfb⟩
    · have h1 : (fuzzyBest sim (pyLower pn) (watchedLower cfg)).1 = none := by
        unfold fuzzyBest
        rw [hacc]
      have h2 : (fuzzyBest sim (pyLower pn) (watchedLower cfg)).2 = 0 := by
        unfold fuzzyBest
        rw [hacc]
      simp only [h1]
      refine Or.inr ⟨trivial, fun w hwm => ?_⟩
      have := fuzzyBest_mem_le sim (pyLower pn) (watchedLower cfg)
        (none, 0) w hwm
      calc sim (pyLower pn) w
          ≤ (fuzzyBest sim (pyLower pn) (watchedLower cfg)).2 := this
        _ = 0 := h2
        _ < cfg.fuzzy_match := hpos
    · have h1 : (fuzzyBest sim (pyLower pn) (watchedLower cfg)).1 = some w := by
        unfold fuzzyBest
        rw [hfb]
      have h2 : (fuzzyBest sim (pyLower pn) (watchedLower cfg)).2 =
          sim (pyLower pn) w := by
        unfold fuzzyBest
        rw [hfb]
      simp only [h1]
      by_cases hge : cfg.fuzzy_match ≤ sim (pyLower pn) w
      · rw [if_pos ⟨hemp w hwmem, by rw [h2]; exact hge⟩]
        refine Or.inl ⟨w, hwmem, by rw [h2], hge, fun w2 hw2 => ?_⟩
        have := fuzzyBest_mem_le sim (pyLower pn) (watchedLower cfg)
          (none, 0) w2 hw2
        rw [hfb] at this
        exact this
      · rw [if_neg (by
          rintro ⟨-, hc⟩
          rw [h2] at hc
          exact hge hc)]
        refine Or.inr ⟨rfl, fun w2 hw2 => ?_⟩
        have := fuzzyBest_mem_le sim (pyLower pn) (watchedLower cfg)
          (none, 0) w2 hw2
        rw [hfb] at this
        exact lt_of_le_of_lt this (not_le.mp hge)
  · intro h0
    rw [hunf, if_pos h0]

/-- Witness for C5: watch list `abc123`, threshold 1, similarity constantly
1 — the fuzzy tier fires and returns the entry with its ratio. -/
theorem c5_tier3_fuzzy_witness :
    (∃ w ∈ watchedLower ⟨["abc123"], 1, true⟩,
        check_watched_plates (fun _ _ => 1) (some "ABC12D") []
          ⟨["abc123"], 1, true⟩ = (some w, none, some 1) ∧
        (1 : ℚ) ≤ 1 ∧
        ∀ w2 ∈ watchedLower ⟨["abc123"], 1, true⟩, (1 : ℚ) ≤ 1) ∨
    (check_watched_plates (fun _ _ => 1) (some "ABC12D") []
        ⟨["abc123"], 1, true⟩ = (none, none, none) ∧
     ∀ w ∈ watchedLower ⟨["abc123"], 1, true⟩, (1 : ℚ) < 1) :=
  (c5_tier3_fuzzy (fun _ _ => 1) ⟨["abc123"], 1, true⟩ "ABC12D" []
    (by decide) (by decide) (by decide) (by decide) (by decide)).1
    (by decide)

end Recognition

namespace Recognition

theorem pymin_double (k : ℕ) :
    pymin (pymin ((2 : ℚ) ^ k) 60 * 2) 60 = pymin ((2 : ℚ) ^ (k + 1)) 60 := by
  rw [pymin_eq_min, pymin_eq_min, pymin_eq_min]
  rcases le_total ((2 : ℚ) ^ k) 60 with h | h
  · rw [min_eq_left h, ← pow_succ]
  · have h1 : (60 : ℚ) ≤ 2 ^ (k + 1) := by
      rw [pow_succ]
      nlinarith
    rw [min_eq_right h, min_eq_right (by norm_num : (60 : ℚ) ≤ 60 * 2),
      min_eq_right h1]

end Recognition

namespace Recognition

theorem prLoop_attempts_le (sim : String → String → ℚ) (cfg : WatchConfig)
    (responses : ℕ → AttemptOutcome) :
    ∀ (rem att : ℕ) (d : ℚ),
      (prLoop sim cfg responses rem att d).attemptsMade ≤ rem := by
  intro rem
  induction rem with
  | zero =>
      intro att d
      simp [prLoop]
  | succ n ih =>
      intro att d
      cases hresp : responses att with
      | transportError =>
          by_cases hn : n = 0
          · simp [prLoop, hresp, hn]
          · simp only [prLoop, hresp, if_neg hn]
            exact Nat.succ_le_succ (ih (att + 1) (pymin (d * 2) 60))
      | httpResponse status body =>
          by_cases h429 : status = 429
          · simp only [prLoop, hresp, if_pos h429]
            exact Nat.succ_le_succ (ih (att + 1) (pymin (d * 2) 60))
          · by_cases hok : status ≠ 200 ∧ status ≠ 201
            · by_cases hn : n = 0
              · simp [prLoop, hresp, h429, hok, hn]
              · simp only [prLoop, hresp, if_neg h429, if_pos hok, if_neg hn]
                exact Nat.succ_le_succ (ih (att + 1) (pymin (d * 2) 60))
            · cases body with
              | invalidJson => simp [prLoop, hresp, h429, hok]
              | results rs =>
                  cases rs with
                  | nil => simp [prLoop, hresp, h429, hok]
                  | cons top rest => simp [prLoop, hresp, h429, hok]

theorem prLoop_sleeps_backoff (sim : String → String → ℚ) (cfg : WatchConfig)
    (responses : ℕ → AttemptOutcome) :
    ∀ (rem att k : ℕ),
      backoffFrom k
        (prLoop sim cfg responses rem att (pymin ((2 : ℚ) ^ k) 60)).sleeps := by
  intro rem
  induction rem with
  | zero =>
      intro att k
      simp [prLoop, backoffFrom]
  | succ n ih =>
      intro att k
      cases hresp : responses att with
      | transportError =>
          by_cases hn : n = 0
          · simp [prLoop, hresp, hn, backoffFrom]
          · simp only [prLoop, hresp, if_neg hn]
            refine ⟨rfl, ?_⟩
            rw [pymin_double]
            exact ih (att + 1) (k + 1)
      | httpResponse status body =>
          by_cases h429 : status = 429
          · simp only [prLoop, hresp, if_pos h429]
            refine ⟨rfl, ?_⟩
            rw [pymin_double]
            exact ih (att + 1) (k + 1)
          · by_cases hok : status ≠ 200 ∧ status ≠ 201
            · by_cases hn : n = 0
              · simp [prLoop, hresp, h429, hok, hn, backoffFrom]
              · simp only [prLoop, hresp, if_neg h429, if_pos hok, if_neg hn]
                refine ⟨rfl, ?_⟩
                rw [pymin_double]
                exact ih (att + 1) (k + 1)
            · cases body with
              | invalidJson => simp [prLoop, hresp, h429, hok, backoffFrom]
              | results rs =>
                  cases rs with
                  | nil => simp [prLoop, hresp, h429, hok, backoffFrom]
                  | cons top rest =>
                      simp [prLoop, hresp, h429, hok, backoffFrom]

theorem prLoop_all_retryable (sim : String → String → ℚ) (cfg : WatchConfig)
    (responses : ℕ → AttemptOutcome) :
    ∀ (n att : ℕ) (d : ℚ),
      (∀ i, att ≤ i → i ≤ att + n → retryableB (responses i) = true) →
      (prLoop sim cfg responses (n + 1) att d).result = emptyRec ∧
      (prLoop sim cfg responses (n + 1) att d).errIncs =
        (if is429 (responses (att + n)) then 0 else 1) ∧
      (prLoop sim cfg responses (n + 1) att d).sleeps.length =
        n + (if is429 (responses (att + n)) then 1 else 0) ∧
      (prLoop sim cfg responses (n + 1) att d).attemptsMade = n + 1 := by
  intro n
  induction n with
  | zero =>
      intro att d hall
      have hcur : retryableB (responses att) = true :=
        hall att (le_refl att) (by omega)
      cases hresp : responses att with
      | transportError => simp [prLoop, hresp, is429]
      | httpResponse status body =>
          rw [hresp] at hcur
          have hne : status ≠ 200 ∧ status ≠ 201 := by
            constructor <;> · intro hc; subst hc; simp [retryableB] at hcur
          by_cases h429 : status = 429
          · simp [prLoop, hresp, h429, is429]
          · simp [prLoop, hresp, h429, hne, is429]
  | succ m ih =>
      intro att d hall
      have hcur : retryableB (responses att) = true :=
        hall att (le_refl att) (by omega)
      have hallr : ∀ i, att + 1 ≤ i → i ≤ (att + 1) + m →
          retryableB (responses i) = true :=
        fun i h1 h2 => hall i (by omega) (by omega)
      have hidx : (att + 1) + m = att + (m + 1) := by omega
      have ihres := ih (att + 1) (pymin (d * 2) 60) hallr
      rw [hidx] at ihres
      generalize hM : m + 1 = M
      rw [hM] at ihres
      have hM0 : M ≠ 0 := by omega
      cases hresp : responses att with
      | transportError =>
          simp only [prLoop, hresp, if_neg hM0]
          refine ⟨ihres.1, ihres.2.1, ?_, ?_⟩
          · simp only [List.length_cons, ihres.2.2.1]
            omega
          · simp only [ihres.2.2.2]
      | httpResponse status body =>
          rw [hresp] at hcur
          have hne : status ≠ 200 ∧ status ≠ 201 := by
            constructor <;> · intro hc; subst hc; simp [retryableB] at hcur
          by_cases h429 : status = 429
          · simp only [prLoop, hresp, if_pos h429]
            refine ⟨ihres.1, ihres.2.1, ?_, ?_⟩
            · simp only [List.length_cons, ihres.2.2.1]
              omega
            · simp only [ihres.2.2.2]
          · simp only [prLoop, hresp, if_neg h429, if_pos hne, if_neg hM0]
            refine ⟨ihres.1, ihres.2.1, ?_, ?_⟩
            · simp only [List.length_cons, ihres.2.2.1]
              omega
            · simp only [ihres.2.2.2]

end Recognition

namespace Recognition

theorem prAttempts_eq (max_retries : ℕ) :
    prAttempts max_retries = max_retries + 1 := by
  unfold prAttempts
  exact max_eq_right (by omega)

/-- C8 counterexample: with `max_retries = 0` (a single attempt) and the
final — only — attempt answered by HTTP 429, the call returns an empty
result but performs zero error-counter increments (and sleeps once before
giving up), contradicting "failure of any of these kinds on the final
attempt ... increments an error counter"; a 429 is such a failure. -/
theorem c8_final_429_counterexample :
    recognize_with_plate_recognizer (fun _ _ => 0) ⟨[], 0, true⟩ 0
        (fun _ => AttemptOutcome.httpResponse 429 Parsed.invalidJson) =
      ⟨emptyRec, 0, [1], 1⟩ ∧
    retryableB (AttemptOutcome.httpResponse 429 Parsed.invalidJson) = true := by
  exact ⟨by decide, by decide⟩

/-- C8 (amended): `recognize_with_plate_recognizer` performs at most
`max_retries + 1` attempts; its sleeps follow the exponential backoff
starting at 1 second, doubling, capped at 60; and when every attempt fails
with a transport error, an HTTP 429, or another non-2xx status, the call
returns an empty result with exactly `max_retries` backoff sleeps before the
final attempt — plus, if the final failure is a 429, one more sleep — and
increments the error counter exactly once, except that a final-attempt 429
returns the empty result without incrementing the error counter. -/
theorem c8_retry_policy_amended (sim : String → String → ℚ)
    (cfg : WatchConfig) (max_retries : ℕ) (responses : ℕ → AttemptOutcome) :
    (recognize_with_plate_recognizer sim cfg max_retries
      responses).attemptsMade ≤ max_retries + 1 ∧
    backoffFrom 0
      (recognize_with_plate_recognizer sim cfg max_retries responses).sleeps ∧
    ((∀ i, 1 ≤ i → i ≤ max_retries + 1 → retryableB (responses i) = true) →
      (recognize_with_plate_recognizer sim cfg max_retries
        responses).result = emptyRec ∧
      (recognize_with_plate_recognizer sim cfg max_retries
        responses).errIncs =
        (if is429 (responses (max_retries + 1)) then 0 else 1) ∧
      (recognize_with_plate_recognizer sim cfg max_retries
        responses).sleeps.length =
        max_retries + (if is429 (responses (max_retries + 1)) then 1 else 0) ∧
      (recognize_with_plate_recognizer sim cfg max_retries
        responses).attemptsMade = max_retries + 1) := by
  unfold recognize_with_plate_recognizer
  rw [prAttempts_eq]
  refine ⟨prLoop_attempts_le sim cfg responses (max_retries + 1) 1 1, ?_, ?_⟩
  · have h1 : (1 : ℚ) = pymin ((2 : ℚ) ^ 0) 60 := by
      unfold pymin
      norm_num
    rw [h1]
    exact prLoop_sleeps_backoff sim cfg responses (max_retries + 1) 1 0
  · intro hall
    have h := prLoop_all_retryable sim cfg responses max_retries 1 1
      (fun i hi1 hi2 => hall i hi1 (by omega))
    rw [Nat.add_comm 1 max_retries] at h
    exact h

/-- Witness for C8 (amended): two attempts (`max_retries = 1`), both failing
with a transport error. -/
theorem c8_retry_policy_amended_witness :
    (recognize_with_plate_recognizer (fun _ _ => 0) ⟨[], 0, true⟩ 1
      (fun _ => AttemptOutcome.transportError)).result = emptyRec ∧
    (recognize_with_plate_recognizer (fun _ _ => 0) ⟨[], 0, true⟩ 1
      (fun _ => AttemptOutcome.transportError)).errIncs =
      (if is429 AttemptOutcome.transportError then 0 else 1) ∧
    (recognize_with_plate_recognizer (fun _ _ => 0) ⟨[], 0, true⟩ 1
      (fun _ => AttemptOutcome.transportError)).sleeps.length =
      1 + (if is429 AttemptOutcome.transportError then 1 else 0) ∧
    (recognize_with_plate_recognizer (fun _ _ => 0) ⟨[], 0, true⟩ 1
      (fun _ => AttemptOutcome.transportError)).attemptsMade = 1 + 1 :=
  (c8_retry_policy_amended (fun _ _ => 0) ⟨[], 0, true⟩ 1
    (fun _ => AttemptOutcome.transportError)).2.2
    (fun _ _ _ => rfl)

end Recognition
